import Mathlib

/-!
Shallow embedding of the interview-preparation REST backend
(`backend/app` in the repository) and proofs about its operations.

Conventions of the embedding:

* UUID values are modelled as natural numbers (only equality of ids matters
  to the code under study).
* `datetime` values are modelled as integer day numbers (the proleptic day
  count since 1970-01-01); `date.weekday()` of Python (Monday = 0) is
  `(d + 3) % 7` because day 0 was a Thursday.
* Python `float` values carried by the data model (`confidence_score`,
  `mastery_level`) are modelled as rationals; the arithmetic performed on
  them (`(m*a + s)/(a+1)`, sums and means of small lists) is exact in ℚ.
* Database tables are lists of rows; `SELECT ... WHERE` is `List.find?` /
  `List.filter`, `UPDATE ... WHERE` maps a row transformer over the rows
  matching the key, `INSERT` appends.  Columns omitted by an `INSERT` get
  the model defaults of the corresponding pydantic model (`mastery_level`
  0.0, optional columns `none`).
* Python truthiness tests (`if category:`, `if answer.confidence_score:`)
  are modelled exactly: `None`, the empty string and the number 0 are falsy.
* `raise HTTPException(...)` is an `Except.error` carrying status code and
  detail; handlers that mutate the store return the (unchanged on error)
  store next to the result.
-/

/-- Identifier values (UUIDs in the source); only equality is used. -/
abbrev UUID := Nat

/-- Python `datetime` values, modelled at day resolution as a day number. -/
abbrev Datetime := Int

/-- Python `date.weekday()` (Monday = 0) for a day number whose day 0
(1970-01-01) was a Thursday. -/
def pyWeekday (d : Datetime) : Int := (d + 3) % 7

/-- Python truthiness of an optional string: `None` and `""` are falsy. -/
def truthyStr : Option String → Bool
  | none => false
  | some s => !s.isEmpty

/-- Python truthiness of an optional float: `None` and `0.0` are falsy. -/
def truthyScore : Option ℚ → Bool
  | none => false
  | some q => q != 0

/-- Python `needle in hay` on strings: contiguous substring containment. -/
def strContains (hay needle : String) : Bool :=
  decide (needle.data <:+: hay.data)

/-- Python `s.lower()`: characterwise lowercasing (the strings compared by
this code are ASCII, where Python and Lean lowercasing agree). -/
def pyToLower (s : String) : String := ⟨s.data.map Char.toLower⟩

/-- Row of the `interview_questions` table (`models/question.py`,
`InterviewQuestion`). -/
structure InterviewQuestion where
  id : UUID
  category : String
  difficulty : String
  title : String
  description : String
  sample_answer : String
  keywords : List String := []
  created_at : Datetime
  tags : List String := []
  company_tags : List String := []
  likes : Int := 0
  views : Int := 0
deriving DecidableEq, Repr

/-- Row of the `user_answers` table (`models/question.py`, `UserAnswer`). -/
structure UserAnswer where
  id : UUID
  user_id : UUID
  question_id : UUID
  answer_text : String
  voice_recording_url : Option String
  feedback : Option String
  confidence_score : Option ℚ
  created_at : Datetime
  updated_at : Option Datetime
deriving DecidableEq, Repr

/-- Row of the `question_progress` table (`models/question.py`,
`QuestionProgress`).  `attempts` is a non-negative count. -/
structure QuestionProgress where
  user_id : UUID
  question_id : UUID
  status : String
  attempts : Nat := 0
  last_attempt_date : Option Datetime
  mastery_level : ℚ := 0
  notes : Option String
deriving DecidableEq, Repr

/-- Key predicate of the `question_progress` table: the `WHERE user_id = %s
AND question_id = %s` clause used by the service and the routes. -/
def progressKey (uid qid : UUID) (p : QuestionProgress) : Bool :=
  p.user_id == uid && p.question_id == qid

/-- Embedding of `ProgressService.update_mastery_level`
(`services/progress_service.py`): fetch the progress row for
(user, question); when present, set
`mastery_level := (mastery_level * attempts + confidence_score) / (attempts + 1)`
(computed once from the fetched row) and increment `attempts`; when absent,
insert a fresh row with status `"in_progress"`, `attempts = 1` and
`mastery_level = confidence_score`. -/
def update_mastery_level (table : List QuestionProgress) (user_id question_id : UUID)
    (confidence_score : ℚ) (now : Datetime) : List QuestionProgress :=
  match table.find? (progressKey user_id question_id) with
  | some current_progress =>
    let new_mastery : ℚ :=
      (current_progress.mastery_level * current_progress.attempts + confidence_score) /
        (current_progress.attempts + 1)
    table.map (fun p =>
      if progressKey user_id question_id p then
        { p with mastery_level := new_mastery,
                 attempts := p.attempts + 1,
                 last_attempt_date := some now }
      else p)
  | none =>
    table ++ [{ user_id := user_id, question_id := question_id,
                status := "in_progress", attempts := 1,
                mastery_level := confidence_score,
                last_attempt_date := some now, notes := none }]

/-- Result of `raise HTTPException(status_code=..., detail=...)`. -/
structure HTTPException where
  status_code : Nat
  detail : String
deriving DecidableEq, Repr

/-- Store visible to the interview routes (`routes/interview_routes.py`). -/
structure InterviewState where
  interview_questions : List InterviewQuestion
  user_answers : List UserAnswer
  question_progress : List QuestionProgress
deriving DecidableEq, Repr

/-- Embedding of the `submit_answer` handler
(`routes/interview_routes.py`, `POST /interview/answers`): verify the
referenced question exists (404 otherwise, nothing written); insert the
answer (with `user_id` forced to the current user and `updated_at` not
inserted); then upsert the progress row for (current user, question):
existing rows get `attempts + 1` and a new `last_attempt_date`, a missing
row is inserted with status `"in_progress"` and `attempts = 1` (the insert
names no `mastery_level` / `notes` column, so those keep model defaults). -/
def submit_answer (st : InterviewState) (answer : UserAnswer) (current_user_id : UUID) :
    Except HTTPException UserAnswer × InterviewState :=
  match st.interview_questions.find? (fun q => q.id == answer.question_id) with
  | none => (.error ⟨404, "Question not found"⟩, st)
  | some _question =>
    let stored : UserAnswer := { answer with user_id := current_user_id, updated_at := none }
    let answers' := st.user_answers ++ [stored]
    match st.question_progress.find? (progressKey current_user_id answer.question_id) with
    | some _progress =>
      let progress' := st.question_progress.map (fun p =>
        if progressKey current_user_id answer.question_id p then
          { p with attempts := p.attempts + 1,
                   last_attempt_date := some answer.created_at }
        else p)
      (.ok answer, { st with user_answers := answers', question_progress := progress' })
    | none =>
      let newRow : QuestionProgress :=
        { user_id := current_user_id, question_id := answer.question_id,
          status := "in_progress", attempts := 1,
          last_attempt_date := some answer.created_at,
          mastery_level := 0, notes := none }
      (.ok answer,
        { st with user_answers := answers',
                  question_progress := st.question_progress ++ [newRow] })

/-- Registration payload (`models/user.py`, `UserCreate`). -/
structure UserCreate where
  email : String
  username : String
  full_name : String
  password : String
deriving DecidableEq, Repr

/-- Row of the `users` table: the columns named by the `INSERT INTO users`
of `routes/user_routes.py` (`models/user.py`, `UserInDB`).  The `progress`
and `preferences` dicts are modelled as association lists. -/
structure UserRow where
  id : UUID
  email : String
  username : String
  full_name : String
  hashed_password : String
  created_at : Datetime
  is_active : Bool
  skills : List String
  progress : List (String × String)
  preferences : List (String × String)
deriving DecidableEq, Repr

/-- Response model of registration (`models/user.py`, `User`): the stored
row without `hashed_password`. -/
structure User where
  id : UUID
  email : String
  username : String
  full_name : String
  created_at : Datetime
  is_active : Bool
  skills : List String
  progress : List (String × String)
  preferences : List (String × String)
deriving DecidableEq, Repr

/-- Embedding of the `register_user` handler (`routes/user_routes.py`,
`POST /users/register`): when a row with the requested email exists,
answer 400 "Email already registered" and leave the table alone; otherwise
build the `UserInDB` row (fresh id and timestamp, `is_active = True`, empty
skills/progress/preferences defaults), insert it, and echo the `User`
projection.  `hash` stands for `get_password_hash`; the id and the
timestamp are environment inputs. -/
def register_user (users : List UserRow) (user : UserCreate) (hash : String → String)
    (fresh_id : UUID) (now : Datetime) : Except HTTPException User × List UserRow :=
  match users.find? (fun r => r.email == user.email) with
  | some _ => (.error ⟨400, "Email already registered"⟩, users)
  | none =>
    let user_in_db : UserRow :=
      { id := fresh_id, email := user.email, username := user.username,
        full_name := user.full_name, hashed_password := hash user.password,
        created_at := now, is_active := true,
        skills := [], progress := [], preferences := [] }
    (.ok { id := user_in_db.id, email := user_in_db.email,
           username := user_in_db.username, full_name := user_in_db.full_name,
           created_at := user_in_db.created_at, is_active := user_in_db.is_active,
           skills := user_in_db.skills, progress := user_in_db.progress,
           preferences := user_in_db.preferences },
     users ++ [user_in_db])

/-- One optional filter of `get_questions`: the condition is appended to the
`WHERE` clause only when the parameter is truthy (Python `if category:`),
so `None` and the empty string impose nothing. -/
def filterCond (param : Option String) (pred : String → InterviewQuestion → Bool)
    (q : InterviewQuestion) : Bool :=
  match param with
  | none => true
  | some s => if s.isEmpty then true else pred s q

/-- Conjunction of the four optional filters of `get_questions`:
`category`/`difficulty` by equality, `tag`/`company` by membership
(`%s = ANY(tags)`, `%s = ANY(company_tags)`). -/
def questionMatches (category difficulty tag company : Option String)
    (q : InterviewQuestion) : Bool :=
  filterCond category (fun c q => q.category == c) q &&
  filterCond difficulty (fun d q => q.difficulty == d) q &&
  filterCond tag (fun t q => q.tags.contains t) q &&
  filterCond company (fun c q => q.company_tags.contains c) q

/-- Embedding of the `get_questions` handler (`routes/interview_routes.py`,
`GET /interview/questions`): FastAPI's `Query(default=10, le=50)` rejects a
limit above 50 with a 422 validation error before the handler runs; the
handler returns the filtered rows cut to `LIMIT limit`. -/
def get_questions (questions : List InterviewQuestion)
    (category difficulty tag company : Option String) (limit : Nat) :
    Except HTTPException (List InterviewQuestion) :=
  if limit > 50 then .error ⟨422, "Input should be less than or equal to 50"⟩
  else .ok ((questions.filter (questionMatches category difficulty tag company)).take limit)

/-- Result dict of `VoiceService.analyze_interview_response`
(`services/voice_service.py`). -/
structure AnalysisResult where
  score : ℚ
  feedback : String
  keywords_mentioned : List String
  missing_keywords : List String
deriving DecidableEq, Repr

/-- Test `keyword.lower() in transcript.lower()` of the keyword loop. -/
def keywordMentioned (transcript keyword : String) : Bool :=
  strContains (pyToLower transcript) (pyToLower keyword)

/-- Embedding of `VoiceService._generate_feedback`: a banded opening
sentence (score ≥ 0.8 / ≥ 0.6 / below), then the mentioned and the missing
keywords when those lists are non-empty, joined with spaces. -/
def generate_feedback (score : ℚ) (keywords_mentioned missing_keywords : List String) :
    String :=
  let feedback : List String :=
    [if score ≥ 0.8 then "Excellent response! You covered most of the key points."
     else if score ≥ 0.6 then "Good response, but there\x27s room for improvement."
     else "You might want to review this topic and try again."]
  let feedback :=
    if keywords_mentioned.isEmpty then feedback
    else feedback ++
      ["You effectively mentioned: " ++ String.intercalate ", " keywords_mentioned]
  let feedback :=
    if missing_keywords.isEmpty then feedback
    else feedback ++
      ["Consider including these points in your answer: " ++
        String.intercalate ", " missing_keywords]
  String.intercalate " " feedback

/-- Embedding of `VoiceService.analyze_interview_response`
(`services/voice_service.py`): look the question up (a missing question
yields the fixed score-0 dict), split its keywords into mentioned and
missing by case-insensitive substring search in the transcript, and score
`len(mentioned) / len(keywords)` with the score forced to 0 when the
keyword list is empty (`if question.keywords else 0`). -/
def analyze_interview_response (questions : List InterviewQuestion)
    (transcript : String) (question_id : UUID) : AnalysisResult :=
  match questions.find? (fun q => q.id == question_id) with
  | none =>
    { score := 0, feedback := "Question not found",
      keywords_mentioned := [], missing_keywords := [] }
  | some question =>
    let keywords_mentioned := question.keywords.filter (fun k => keywordMentioned transcript k)
    let missing_keywords := question.keywords.filter (fun k => !keywordMentioned transcript k)
    let keyword_score : ℚ :=
      if question.keywords.isEmpty then 0
      else (keywords_mentioned.length : ℚ) / (question.keywords.length : ℚ)
    { score := keyword_score,
      feedback := generate_feedback keyword_score keywords_mentioned missing_keywords,
      keywords_mentioned := keywords_mentioned,
      missing_keywords := missing_keywords }

/-- Job posting record (`services/job_service.py`, `JobPosting`). -/
structure JobPosting where
  id : UUID
  title : String
  company : String
  location : String
  description : String
  requirements : List String
  salary_range : Option String
  posting_url : String
  source : String
  posted_date : Datetime
  skills_required : List String
  experience_level : String
deriving DecidableEq, Repr

/-- Embedding of `calculate_relevance` inside
`JobService._sort_jobs_by_relevance`: the number of user skills appearing
(case-insensitively, as a substring) in some required-skill string. -/
def calculate_relevance (user_skills : List String) (job : JobPosting) : Nat :=
  user_skills.countP (fun skill =>
    job.skills_required.any (fun req => strContains (pyToLower req) (pyToLower skill)))

/-- Embedding of `JobService._sort_jobs_by_relevance`
(`services/job_service.py`): Python's `sorted(jobs, key=..., reverse=True)`
is the stable sort under the descending comparison `key b ≤ key a`. -/
def sort_jobs_by_relevance (jobs : List JobPosting) (user_skills : List String) :
    List JobPosting :=
  jobs.mergeSort (fun a b =>
    calculate_relevance user_skills b ≤ calculate_relevance user_skills a)

/-- Per-bucket accumulator of the statistics loops of
`services/progress_service.py`: `questions_attempted` plus the raw
`scores` list (deleted from the output after averaging). -/
structure BucketAcc where
  questions_attempted : Nat
  scores : List ℚ
deriving DecidableEq, Repr

/-- Processing one answer inside a bucket: `questions_attempted += 1`, and
the confidence score is appended when truthy (`if answer.confidence_score:`,
so `None` and `0.0` are skipped). -/
def bucketAdd (a : UserAnswer) (d : BucketAcc) : BucketAcc :=
  { questions_attempted := d.questions_attempted + 1,
    scores := d.scores ++
      (if truthyScore a.confidence_score then a.confidence_score.toList else []) }

/-- Insertion-ordered `defaultdict` update: modify the value at `k` in
place, or append `(k, f dflt)` when `k` is new (Python dicts keep
insertion order). -/
def dictUpdate {κ β : Type} [BEq κ] : List (κ × β) → κ → β → (β → β) → List (κ × β)
  | [], k, dflt, f => [(k, f dflt)]
  | (k', v) :: rest, k, dflt, f =>
    if k' == k then (k', f v) :: rest else (k', v) :: dictUpdate rest k dflt f

/-- One iteration of a statistics loop: answers whose bucket key is
unavailable (a missing question row) are skipped. -/
def bucketStep {κ : Type} [BEq κ] (key? : UserAnswer → Option κ)
    (m : List (κ × BucketAcc)) (a : UserAnswer) : List (κ × BucketAcc) :=
  match key? a with
  | none => m
  | some k => dictUpdate m k ⟨0, []⟩ (bucketAdd a)

/-- The whole statistics loop over the answers, starting from the empty
`defaultdict`. -/
def bucketFold {κ : Type} [BEq κ] (key? : UserAnswer → Option κ)
    (answers : List UserAnswer) : List (κ × BucketAcc) :=
  answers.foldl (bucketStep key?) []

/-- Final `average_score` of a bucket: mean of the accumulated scores, and
the initial 0.0 when none were accumulated (`if week_data["scores"]:`). -/
def bucketAverage (d : BucketAcc) : ℚ :=
  if d.scores.isEmpty then 0 else d.scores.sum / d.scores.length

/-- The `week_start` key of `_get_weekly_progress`:
`answer.created_at.date() - timedelta(days=answer.created_at.weekday())`. -/
def weekStartOf (a : UserAnswer) : Int :=
  a.created_at - pyWeekday a.created_at

/-- Output entry of `_get_weekly_progress` (the dict
`{"week": ..., "questions_attempted": ..., "average_score": ...}`). -/
structure WeeklyEntry where
  week : Int
  questions_attempted : Nat
  average_score : ℚ
deriving DecidableEq, Repr

/-- Embedding of `ProgressService._get_weekly_progress`
(`services/progress_service.py`): bucket the answers by week start,
count every answer, collect only truthy confidence scores, and report the
mean of the collected scores (0.0 for a bucket that collected none). -/
def get_weekly_progress (answers : List UserAnswer) : List WeeklyEntry :=
  (bucketFold (fun a => some (weekStartOf a)) answers).map (fun wd =>
    { week := wd.1, questions_attempted := wd.2.questions_attempted,
      average_score := bucketAverage wd.2 })

/-- Output entry of `_get_category_performance` for one category. -/
structure CategoryEntry where
  questions_attempted : Nat
  average_score : ℚ
deriving DecidableEq, Repr

/-- The bucket key of `_get_category_performance`: the category of the
answer's question, when that question exists (`if question:`). -/
def questionCategory (questions : List InterviewQuestion) (a : UserAnswer) :
    Option String :=
  (questions.find? (fun q => q.id == a.question_id)).map (fun q => q.category)

/-- Embedding of `ProgressService._get_category_performance`
(`services/progress_service.py`): bucket the answers by their question's
category (answers to missing questions are skipped), count every bucketed
answer, collect only truthy confidence scores, and report the mean of the
collected scores (0.0 for a bucket that collected none). -/
def get_category_performance (questions : List InterviewQuestion)
    (answers : List UserAnswer) : List (String × CategoryEntry) :=
  (bucketFold (questionCategory questions) answers).map (fun cd =>
    (cd.1, { questions_attempted := cd.2.questions_attempted,
             average_score := bucketAverage cd.2 }))

/-- Lookup in an association list (the dict read `m[k]`). -/
def dictFind? {κ β : Type} [BEq κ] (m : List (κ × β)) (k : κ) : Option β :=
  (m.find? (fun kv => kv.1 == k)).map (fun kv => kv.2)

/-- Pointwise combination of two bucket accumulators: counts add, score
lists concatenate. -/
def bucketAccAppend (d e : BucketAcc) : BucketAcc :=
  { questions_attempted := d.questions_attempted + e.questions_attempted,
    scores := d.scores ++ e.scores }

/-- Declarative description of a bucket: the answers whose key is `k`. -/
def bucketAnswers {κ : Type} [BEq κ] (key? : UserAnswer → Option κ) (k : κ)
    (answers : List UserAnswer) : List UserAnswer :=
  answers.filter (fun a =>
    match key? a with
    | some k' => k' == k
    | none => false)

/-- Declarative description of the scores a bucket accumulates: the truthy
confidence scores of the bucket's answers, in order. -/
def bucketScores {κ : Type} [BEq κ] (key? : UserAnswer → Option κ) (k : κ)
    (answers : List UserAnswer) : List ℚ :=
  (bucketAnswers key? k answers).filterMap
    (fun a => if truthyScore a.confidence_score then a.confidence_score else none)

/-- Declarative description of a whole bucket accumulator. -/
def bucketContrib {κ : Type} [BEq κ] (key? : UserAnswer → Option κ) (k : κ)
    (answers : List UserAnswer) : BucketAcc :=
  { questions_attempted := (bucketAnswers key? k answers).length,
    scores := bucketScores key? k answers }

/-- Row of the `media_files` table (`routes/media_routes.py`). -/
structure MediaFile where
  id : UUID
  user_id : UUID
  filename : String
  original_filename : String
  category : Option String
  tags : List String
  upload_date : Datetime
  file_type : String
  file_size : Nat
deriving DecidableEq, Repr

/-- Embedding of the `delete_file` handler (`routes/media_routes.py`,
`DELETE /media/files/{file_id}`): look the row up by id and owner (404
otherwise); attempt the S3 `delete_object` (`s3_delete` is the outcome of
that external call) — a storage failure raises 500 before the database
delete runs; only after storage success is the metadata row deleted. -/
def delete_file (files : List MediaFile) (file_id : UUID) (current_user_id : UUID)
    (s3_delete : Except String Unit) : Except HTTPException String × List MediaFile :=
  match files.find? (fun f => f.id == file_id && f.user_id == current_user_id) with
  | none => (.error ⟨404, "File not found"⟩, files)
  | some _file_info =>
    match s3_delete with
    | .error e => (.error ⟨500, e⟩, files)
    | .ok _ =>
      (.ok "File deleted successfully", files.filter (fun f => !(f.id == file_id)))

/-- Documented invariant on the `question_progress` table: every
`mastery_level` lies in [0, 1]. -/
def masteryInv (table : List QuestionProgress) : Prop :=
  ∀ p ∈ table, 0 ≤ p.mastery_level ∧ p.mastery_level ≤ 1

/-- Sample question used to evaluate the theorems on concrete data. -/
def sampleQuestion : InterviewQuestion :=
  { id := 2, category := "algorithms", difficulty := "easy", title := "BFS",
    description := "Explain BFS.", sample_answer := "Breadth-first search.",
    keywords := ["graph", "queue"], created_at := 0,
    tags := ["search"], company_tags := ["acme"], likes := 0, views := 0 }

/-- Sample progress row (user 1, question 2, three attempts, mastery 1/2). -/
def sampleProgress : QuestionProgress :=
  { user_id := 1, question_id := 2, status := "in_progress", attempts := 3,
    last_attempt_date := some 0, mastery_level := 1/2, notes := none }

/-- Sample submitted answer for question 2 with confidence score 3/4. -/
def sampleAnswer : UserAnswer :=
  { id := 10, user_id := 7, question_id := 2, answer_text := "Use a queue.",
    voice_recording_url := none, feedback := none, confidence_score := some (3/4),
    created_at := 4, updated_at := none }

/-- Sample interview store holding the question and the progress row. -/
def sampleState : InterviewState :=
  { interview_questions := [sampleQuestion], user_answers := [],
    question_progress := [sampleProgress] }

/-- Sample registration payload. -/
def sampleUser1 : UserCreate :=
  { email := "alice@example.com", username := "alice", full_name := "Alice",
    password := "pw1" }

/-- Second registration payload carrying the same email. -/
def sampleUser2 : UserCreate :=
  { email := "alice@example.com", username := "bob", full_name := "Bob",
    password := "pw2" }

/-- Job posting matched by both skills "python" and "sql". -/
def sampleJobP1 : JobPosting :=
  { id := 1, title := "Data Engineer", company := "Acme", location := "NYC",
    description := "d", requirements := [], salary_range := none,
    posting_url := "u1", source := "indeed", posted_date := 0,
    skills_required := ["Python", "SQL"], experience_level := "mid-level" }

/-- Job posting matched by no user skill. -/
def sampleJobP2 : JobPosting :=
  { id := 2, title := "Designer", company := "Acme", location := "NYC",
    description := "d", requirements := [], salary_range := none,
    posting_url := "u2", source := "indeed", posted_date := 0,
    skills_required := ["Figma"], experience_level := "mid-level" }

/-- Sample stored media file owned by user 1. -/
def sampleFile : MediaFile :=
  { id := 5, user_id := 1, filename := "abc.png", original_filename := "x.png",
    category := none, tags := [], upload_date := 0, file_type := "image/png",
    file_size := 10 }

/-- Answer with confidence score 0.0, which Python truthiness treats as
absent; its companion `oneScoreAnswer` falls in the same week. -/
def zeroScoreAnswer : UserAnswer :=
  { id := 11, user_id := 1, question_id := 2, answer_text := "a",
    voice_recording_url := none, feedback := none, confidence_score := some 0,
    created_at := 0, updated_at := none }

/-- Companion answer in the same week with confidence score 1.0. -/
def oneScoreAnswer : UserAnswer :=
  { id := 12, user_id := 1, question_id := 2, answer_text := "b",
    voice_recording_url := none, feedback := none,
    confidence_score := some 1, created_at := 1, updated_at := none }

/-! ## Helper lemmas -/

/-- Finding under a predicate is unchanged by mapping a function that
preserves the predicate. -/
theorem find?_map_of_pred_invariant {α : Type} {f : α → α} {p : α → Bool}
    (h : ∀ a, p (f a) = p a) (l : List α) :
    (l.map f).find? p = (l.find? p).map f := by
  have hpf : (p ∘ f) = p := funext h
  rw [List.find?_map, hpf]

/-- The running-mean step stays inside [0, 1]: for mastery `m ∈ [0,1]`,
attempt count `a` and score `s ∈ [0,1]`, `(m*a + s)/(a+1) ∈ [0,1]`. -/
theorem mastery_step_bounds (m s : ℚ) (a : ℕ)
    (hm0 : 0 ≤ m) (hm1 : m ≤ 1) (hs0 : 0 ≤ s) (hs1 : s ≤ 1) :
    0 ≤ (m * a + s) / (a + 1) ∧ (m * a + s) / (a + 1) ≤ 1 := by
  have hcast : (0:ℚ) ≤ (a : ℚ) := Nat.cast_nonneg a
  have ha : (0:ℚ) < (a : ℚ) + 1 := by positivity
  constructor
  · apply div_nonneg _ ha.le
    nlinarith
  · rw [div_le_one ha]
    nlinarith

/-- Updating only non-key fields of the rows matching the key leaves the
key predicate of every row unchanged. -/
theorem progressKey_map_invariant (uid qid : UUID) (g : QuestionProgress → QuestionProgress)
    (hg : ∀ r, (g r).user_id = r.user_id ∧ (g r).question_id = r.question_id) :
    ∀ r, progressKey uid qid (if progressKey uid qid r then g r else r) =
      progressKey uid qid r := by
  intro r
  by_cases h : progressKey uid qid r = true
  · rw [if_pos h]
    unfold progressKey
    rw [(hg r).1, (hg r).2]
  · rw [if_neg h]

/-! ## Claim theorems -/

/-- C1: when a progress row with mastery `m` and attempts `a` exists for
(user, question), `update_mastery_level` with a new confidence score `s`
stores mastery exactly `(m*a + s)/(a+1)` and attempts `a + 1`: the old
attempts value forms the divisor and is incremented only afterwards. -/
theorem update_mastery_level_formula (table : List QuestionProgress)
    (uid qid : UUID) (s : ℚ) (now : Datetime) (p : QuestionProgress)
    (hfind : table.find? (progressKey uid qid) = some p) :
    (update_mastery_level table uid qid s now).find? (progressKey uid qid) =
      some { p with
             mastery_level := (p.mastery_level * p.attempts + s) / (p.attempts + 1),
             attempts := p.attempts + 1,
             last_attempt_date := some now } := by
  have hp : progressKey uid qid p = true := List.find?_some hfind
  simp only [update_mastery_level, hfind]
  rw [find?_map_of_pred_invariant (progressKey_map_invariant uid qid
      (fun r => { r with
                  attempts := r.attempts + 1, last_attempt_date := some now,
                  mastery_level := (p.mastery_level * p.attempts + s) / (p.attempts + 1) })
      (fun r => ⟨rfl, rfl⟩)),
    hfind, Option.map_some', if_pos hp]

/-- Closed witness for C1 on the sample table. -/
theorem update_mastery_level_formula_witness :
    ([sampleProgress].find? (progressKey 1 2) = some sampleProgress) ∧
    (update_mastery_level [sampleProgress] 1 2 (3/4) 5).find? (progressKey 1 2) =
      some { sampleProgress with
             mastery_level :=
               (sampleProgress.mastery_level * sampleProgress.attempts + 3/4) /
                 (sampleProgress.attempts + 1),
             attempts := sampleProgress.attempts + 1,
             last_attempt_date := some 5 } :=
  ⟨rfl, update_mastery_level_formula [sampleProgress] 1 2 (3/4) 5 sampleProgress rfl⟩

/-- C2: every operation touching mastery keeps it in [0, 1].  If every row
of the table has mastery in [0, 1] and the incoming confidence score lies
in [0, 1], then after `update_mastery_level` (either branch) every row
still has mastery in [0, 1]; and `submit_answer` (either branch) preserves
the same invariant on its store. -/
theorem mastery_bounds_preserved (table : List QuestionProgress)
    (uid qid : UUID) (s : ℚ) (now : Datetime)
    (st : InterviewState) (answer : UserAnswer) (cuid : UUID)
    (hs0 : 0 ≤ s) (hs1 : s ≤ 1) :
    (masteryInv table → masteryInv (update_mastery_level table uid qid s now)) ∧
    (masteryInv st.question_progress →
      masteryInv ((submit_answer st answer cuid).2.question_progress)) := by
  constructor
  · intro hInv
    unfold update_mastery_level
    cases hfind : table.find? (progressKey uid qid) with
    | none =>
      intro r hr
      rcases List.mem_append.1 hr with hr | hr
      · exact hInv r hr
      · rcases List.mem_singleton.1 hr with rfl
        exact ⟨hs0, hs1⟩
    | some cp =>
      intro r hr
      obtain ⟨y, hy, rfl⟩ := List.mem_map.1 hr
      have hcp := hInv cp (List.mem_of_find?_eq_some hfind)
      by_cases hkey : progressKey uid qid y
      · simp only [hkey, if_true]
        exact mastery_step_bounds cp.mastery_level s cp.attempts hcp.1 hcp.2 hs0 hs1
      · simp only [hkey, if_false]
        exact hInv y hy
  · intro hInv
    unfold submit_answer
    cases hq : st.interview_questions.find? (fun q => q.id == answer.question_id) with
    | none => exact hInv
    | some q =>
      cases hp : st.question_progress.find? (progressKey cuid answer.question_id) with
      | some p =>
        intro r hr
        obtain ⟨y, hy, rfl⟩ := List.mem_map.1 hr
        by_cases hkey : progressKey cuid answer.question_id y
        · simp only [hkey, if_true]
          exact hInv y hy
        · simp only [hkey, if_false]
          exact hInv y hy
      | none =>
        intro r hr
        rcases List.mem_append.1 hr with hr | hr
        · exact hInv r hr
        · rcases List.mem_singleton.1 hr with rfl
          exact ⟨le_refl 0, by norm_num⟩

/-- Closed witness for C2 at score 3/4 on the sample store. -/
theorem mastery_bounds_preserved_witness :
    (0 ≤ (3/4 : ℚ)) ∧ ((3/4 : ℚ) ≤ 1) ∧
    ((masteryInv [sampleProgress] →
        masteryInv (update_mastery_level [sampleProgress] 1 2 (3/4) 5)) ∧
      (masteryInv sampleState.question_progress →
        masteryInv ((submit_answer sampleState sampleAnswer 1).2.question_progress))) :=
  ⟨by norm_num, by norm_num,
    mastery_bounds_preserved [sampleProgress] 1 2 (3/4) 5 sampleState sampleAnswer 1
      (by norm_num) (by norm_num)⟩

/-- C3: `submit_answer` answers 404 and persists nothing when the
referenced question is missing; otherwise it echoes the answer, stores it
(with the current user as owner), and upserts the progress row: an
existing (user, question) row gets `attempts + 1` and a fresh
`last_attempt_date` (no row added or removed), a missing one is created
with status `"in_progress"` and `attempts = 1`. -/
theorem submit_answer_spec (st : InterviewState) (answer : UserAnswer) (cuid : UUID) :
    (st.interview_questions.find? (fun q => q.id == answer.question_id) = none →
      submit_answer st answer cuid = (.error ⟨404, "Question not found"⟩, st)) ∧
    (∀ q0, st.interview_questions.find? (fun q => q.id == answer.question_id) = some q0 →
      (submit_answer st answer cuid).1 = .ok answer ∧
      (submit_answer st answer cuid).2.interview_questions = st.interview_questions ∧
      (submit_answer st answer cuid).2.user_answers =
        st.user_answers ++ [{ answer with user_id := cuid, updated_at := none }] ∧
      (∀ p0, st.question_progress.find? (progressKey cuid answer.question_id) = some p0 →
        (submit_answer st answer cuid).2.question_progress.length =
          st.question_progress.length ∧
        (submit_answer st answer cuid).2.question_progress.find?
            (progressKey cuid answer.question_id) =
          some { p0 with
                 attempts := p0.attempts + 1,
                 last_attempt_date := some answer.created_at }) ∧
      (st.question_progress.find? (progressKey cuid answer.question_id) = none →
        (submit_answer st answer cuid).2.question_progress =
          st.question_progress ++
            [{ user_id := cuid, question_id := answer.question_id,
               status := "in_progress", attempts := 1,
               last_attempt_date := some answer.created_at,
               mastery_level := 0, notes := none }])) := by
  constructor
  · intro hq
    simp only [submit_answer, hq]
  · intro q0 hq
    cases hp : st.question_progress.find? (progressKey cuid answer.question_id) with
    | some p0 =>
      have hsa : submit_answer st answer cuid =
          (.ok answer,
            { st with
              user_answers :=
                st.user_answers ++ [{ answer with user_id := cuid, updated_at := none }],
              question_progress := st.question_progress.map (fun p =>
                if progressKey cuid answer.question_id p then
                  { p with attempts := p.attempts + 1,
                           last_attempt_date := some answer.created_at }
                else p) }) := by
        simp only [submit_answer, hq, hp]
      refine ⟨by simp only [hsa], by simp only [hsa], by simp only [hsa], ?_, ?_⟩
      · intro p1 hp1
        injection hp1 with hp1
        subst hp1
        simp only [hsa]
        refine ⟨List.length_map _ _, ?_⟩
        rw [find?_map_of_pred_invariant (progressKey_map_invariant cuid answer.question_id
            (fun r => { r with
                        attempts := r.attempts + 1,
                        last_attempt_date := some answer.created_at })
            (fun r => ⟨rfl, rfl⟩)),
          hp, Option.map_some', if_pos (List.find?_some hp)]
      · intro hnone
        exact Option.noConfusion hnone
    | none =>
      have hsa : submit_answer st answer cuid =
          (.ok answer,
            { st with
              user_answers :=
                st.user_answers ++ [{ answer with user_id := cuid, updated_at := none }],
              question_progress := st.question_progress ++
                [{ user_id := cuid, question_id := answer.question_id,
                   status := "in_progress", attempts := 1,
                   last_attempt_date := some answer.created_at,
                   mastery_level := 0, notes := none }] }) := by
        simp only [submit_answer, hq, hp]
      refine ⟨by simp only [hsa], by simp only [hsa], by simp only [hsa], ?_,
        fun _ => by simp only [hsa]⟩
      intro p0 hp0
      exact Option.noConfusion hp0

/-- Closed witness for C3: the success branch on the sample store and the
404 branch on a store without questions. -/
theorem submit_answer_spec_witness :
    (submit_answer sampleState sampleAnswer 1).1 = .ok sampleAnswer ∧
    submit_answer { sampleState with interview_questions := [] } sampleAnswer 1 =
      (.error ⟨404, "Question not found"⟩,
        { sampleState with interview_questions := [] }) :=
  ⟨((submit_answer_spec sampleState sampleAnswer 1).2 sampleQuestion rfl).1,
   (submit_answer_spec { sampleState with interview_questions := [] } sampleAnswer 1).1 rfl⟩

/-- C10: when a progress row already exists for (user, question),
`submit_answer` turns the progress table into a row-by-row image in which
every row keeps its identity, mastery, status and notes; rows of any other
(user, question) pair are untouched and the matching row changes exactly
`attempts` (+1) and `last_attempt_date`. -/
theorem submit_answer_frame (st : InterviewState) (answer : UserAnswer) (cuid : UUID)
    (q0 : InterviewQuestion) (p0 : QuestionProgress)
    (hq : st.interview_questions.find? (fun q => q.id == answer.question_id) = some q0)
    (hp : st.question_progress.find? (progressKey cuid answer.question_id) = some p0) :
    List.Forall₂ (fun r r' : QuestionProgress =>
        r'.user_id = r.user_id ∧ r'.question_id = r.question_id ∧
        r'.mastery_level = r.mastery_level ∧ r'.status = r.status ∧ r'.notes = r.notes ∧
        (progressKey cuid answer.question_id r = false → r' = r) ∧
        (progressKey cuid answer.question_id r = true →
          r'.attempts = r.attempts + 1 ∧ r'.last_attempt_date = some answer.created_at))
      st.question_progress ((submit_answer st answer cuid).2.question_progress) := by
  simp only [submit_answer, hq, hp]
  rw [List.forall₂_map_right_iff, List.forall₂_same]
  intro r _hr
  by_cases hkey : progressKey cuid answer.question_id r = true
  · rw [if_pos hkey]
    exact ⟨rfl, rfl, rfl, rfl, rfl,
      fun hfalse => absurd hkey (by rw [hfalse]; exact Bool.false_ne_true),
      fun _ => ⟨rfl, rfl⟩⟩
  · rw [if_neg hkey]
    exact ⟨rfl, rfl, rfl, rfl, rfl, fun _ => rfl, fun htrue => absurd htrue hkey⟩

/-- Closed witness for C10 on the sample store. -/
theorem submit_answer_frame_witness :
    List.Forall₂ (fun r r' : QuestionProgress =>
        r'.user_id = r.user_id ∧ r'.question_id = r.question_id ∧
        r'.mastery_level = r.mastery_level ∧ r'.status = r.status ∧ r'.notes = r.notes ∧
        (progressKey 1 sampleAnswer.question_id r = false → r' = r) ∧
        (progressKey 1 sampleAnswer.question_id r = true →
          r'.attempts = r.attempts + 1 ∧ r'.last_attempt_date = some sampleAnswer.created_at))
      sampleState.question_progress
      ((submit_answer sampleState sampleAnswer 1).2.question_progress) :=
  submit_answer_frame sampleState sampleAnswer 1 sampleQuestion sampleProgress rfl rfl

/-- C4: registering a fresh email succeeds, echoes the created user, and
appends exactly one row; immediately re-registering any payload with the
same email answers the duplicate-email Conflict (HTTP 400, "Email already
registered") and leaves the user table exactly as it was. -/
theorem register_user_conflict (users : List UserRow) (u1 u2 : UserCreate)
    (hash1 hash2 : String → String) (id1 id2 : UUID) (now1 now2 : Datetime)
    (hemail : u2.email = u1.email)
    (hfresh : users.find? (fun r => r.email == u1.email) = none) :
    (register_user users u1 hash1 id1 now1).1 =
      .ok { id := id1, email := u1.email, username := u1.username,
            full_name := u1.full_name, created_at := now1, is_active := true,
            skills := [], progress := [], preferences := [] } ∧
    (register_user users u1 hash1 id1 now1).2 =
      users ++ [{ id := id1, email := u1.email, username := u1.username,
                  full_name := u1.full_name, hashed_password := hash1 u1.password,
                  created_at := now1, is_active := true,
                  skills := [], progress := [], preferences := [] }] ∧
    (register_user users u1 hash1 id1 now1).2.length = users.length + 1 ∧
    register_user (register_user users u1 hash1 id1 now1).2 u2 hash2 id2 now2 =
      (.error ⟨400, "Email already registered"⟩,
        (register_user users u1 hash1 id1 now1).2) := by
  have h2 : (register_user users u1 hash1 id1 now1).2 =
      users ++ [{ id := id1, email := u1.email, username := u1.username,
                  full_name := u1.full_name, hashed_password := hash1 u1.password,
                  created_at := now1, is_active := true,
                  skills := [], progress := [], preferences := [] }] := by
    simp only [register_user, hfresh]
  refine ⟨by simp only [register_user, hfresh], h2, ?_, ?_⟩
  · rw [h2, List.length_append]
    rfl
  · rw [h2]
    simp only [register_user, List.find?_append, hfresh, hemail, Option.none_or]
    simp [List.find?]

/-- Closed witness for C4 on an empty user table. -/
theorem register_user_conflict_witness :
    sampleUser2.email = sampleUser1.email ∧
    ([] : List UserRow).find? (fun r => r.email == sampleUser1.email) = none ∧
    register_user (register_user [] sampleUser1 id 1 0).2 sampleUser2 id 2 1 =
      (.error ⟨400, "Email already registered"⟩,
        (register_user [] sampleUser1 id 1 0).2) :=
  ⟨rfl, rfl,
    (register_user_conflict [] sampleUser1 sampleUser2 id id 1 2 0 1 rfl rfl).2.2.2⟩

/-- C5 counterexample: the category filter is provided as the empty string
(`?category=`), yet the handler drops the condition (Python `if category:`
treats `""` as absent), so a question whose category is "algorithms" — not
equal to the provided filter value — is returned. -/
theorem get_questions_empty_filter_cex :
    get_questions [sampleQuestion] (some "") none none none 10 =
      .ok [sampleQuestion] ∧
    sampleQuestion.category ≠ "" := by
  constructor
  · rfl
  · decide

/-- C5 (amended): provided filters constrain the result only when they are
non-empty strings; every returned question satisfies every provided
non-empty filter (category/difficulty by equality, tag/company by list
membership), and a successful call returns at most `min limit 50`
questions (a limit above 50 is rejected by validation before the handler
runs). -/
theorem get_questions_filters (questions : List InterviewQuestion)
    (category difficulty tag company : Option String) (limit : Nat)
    (hlim : limit ≤ 50) :
    ∃ result, get_questions questions category difficulty tag company limit = .ok result ∧
      result.length ≤ min limit 50 ∧
      ∀ q ∈ result,
        (∀ c, category = some c → c ≠ "" → q.category = c) ∧
        (∀ d, difficulty = some d → d ≠ "" → q.difficulty = d) ∧
        (∀ t, tag = some t → t ≠ "" → t ∈ q.tags) ∧
        (∀ c, company = some c → c ≠ "" → c ∈ q.company_tags) := by
  refine ⟨(questions.filter (questionMatches category difficulty tag company)).take limit,
    ?_, ?_, ?_⟩
  · unfold get_questions
    rw [if_neg (by omega)]
  · exact le_min (List.length_take_le limit _)
      (le_trans (List.length_take_le limit _) hlim)
  · intro q hq
    have hmem := List.mem_of_mem_take hq
    have hmatch : questionMatches category difficulty tag company q = true :=
      (List.mem_filter.1 hmem).2
    unfold questionMatches at hmatch
    rw [Bool.and_eq_true, Bool.and_eq_true, Bool.and_eq_true] at hmatch
    obtain ⟨⟨⟨hcat, hdiff⟩, htag⟩, hcomp⟩ := hmatch
    have hempty : ∀ s : String, s ≠ "" → s.isEmpty = false := fun s hs => by
      rw [Bool.eq_false_iff]
      intro habs
      exact hs ((String.isEmpty_iff s).1 habs)
    refine ⟨?_, ?_, ?_, ?_⟩
    · intro c hc hne
      subst hc
      simp [filterCond, hempty c hne] at hcat
      exact hcat
    · intro d hd hne
      subst hd
      simp [filterCond, hempty d hne] at hdiff
      exact hdiff
    · intro t ht hne
      subst ht
      simp [filterCond, hempty t hne] at htag
      exact htag
    · intro c hc hne
      subst hc
      simp [filterCond, hempty c hne] at hcomp
      exact hcomp

/-- Closed witness for C5 (amended) with a non-empty category filter and
limit 10. -/
theorem get_questions_filters_witness :
    10 ≤ 50 ∧
    ∃ result,
      get_questions [sampleQuestion] (some "algorithms") none none none 10 = .ok result ∧
      result.length ≤ min 10 50 ∧
      ∀ q ∈ result,
        (∀ c, (some "algorithms" : Option String) = some c → c ≠ "" → q.category = c) ∧
        (∀ d, (none : Option String) = some d → d ≠ "" → q.difficulty = d) ∧
        (∀ t, (none : Option String) = some t → t ≠ "" → t ∈ q.tags) ∧
        (∀ c, (none : Option String) = some c → c ≠ "" → c ∈ q.company_tags) :=
  ⟨by omega,
    get_questions_filters [sampleQuestion] (some "algorithms") none none none 10 (by omega)⟩

/-- C6: when the referenced question exists, the analysis score equals
`k / n` where `n` is the number of required keywords and `k` the number of
them found in the transcript by case-insensitive substring match; with no
required keywords the score is the guarded 0 (the division is never
reached). -/
theorem analyze_interview_response_score (questions : List InterviewQuestion)
    (transcript : String) (qid : UUID) (question : InterviewQuestion)
    (hq : questions.find? (fun q => q.id == qid) = some question) :
    (question.keywords.length = 0 →
      (analyze_interview_response questions transcript qid).score = 0) ∧
    (0 < question.keywords.length →
      (analyze_interview_response questions transcript qid).score =
        (question.keywords.countP (fun k => keywordMentioned transcript k) : ℚ) /
          (question.keywords.length : ℚ)) := by
  constructor
  · intro hn
    have hempty : question.keywords.isEmpty = true :=
      List.isEmpty_iff_length_eq_zero.2 hn
    simp [analyze_interview_response, hq, hempty]
  · intro hn
    have hempty : question.keywords.isEmpty = false := by
      rw [Bool.eq_false_iff]
      intro habs
      rw [List.isEmpty_iff_length_eq_zero] at habs
      omega
    simp [analyze_interview_response, hq, hempty, List.countP_eq_length_filter]

/-- Closed witness for C6: the sample question (keywords "graph" and
"queue") against a transcript mentioning only "graph". -/
theorem analyze_interview_response_score_witness :
    ([sampleQuestion].find? (fun q => q.id == 2) = some sampleQuestion) ∧
    (0 < sampleQuestion.keywords.length →
      (analyze_interview_response [sampleQuestion] "I would use a Graph here" 2).score =
        (sampleQuestion.keywords.countP
            (fun k => keywordMentioned "I would use a Graph here" k) : ℚ) /
          (sampleQuestion.keywords.length : ℚ)) :=
  ⟨rfl,
    (analyze_interview_response_score [sampleQuestion] "I would use a Graph here" 2
      sampleQuestion rfl).2⟩

/-- C9: `delete_file` on an owned file propagates a storage failure as a
500 error and leaves the metadata table exactly as it was (the database
delete runs only after a successful storage delete, which then removes the
row with the requested id). -/
theorem delete_file_storage_failure (files : List MediaFile) (fid uid : UUID)
    (f0 : MediaFile)
    (hfind : files.find? (fun f => f.id == fid && f.user_id == uid) = some f0) :
    (∀ e, delete_file files fid uid (.error e) = (.error ⟨500, e⟩, files)) ∧
    delete_file files fid uid (.ok ()) =
      (.ok "File deleted successfully", files.filter (fun f => !(f.id == fid))) := by
  unfold delete_file
  rw [hfind]
  exact ⟨fun e => rfl, rfl⟩

/-- Closed witness for C9 on a one-file table with a failing storage call. -/
theorem delete_file_storage_failure_witness :
    ([sampleFile].find? (fun f => f.id == 5 && f.user_id == 1) = some sampleFile) ∧
    delete_file [sampleFile] 5 1 (.error "storage down") =
      (.error ⟨500, "storage down"⟩, [sampleFile]) :=
  ⟨rfl, (delete_file_storage_failure [sampleFile] 5 1 sampleFile rfl).1 "storage down"⟩

/-- C7: the recommended ordering is a permutation of the input, pairwise
sorted by descending relevance score (count of user skills occurring
case-insensitively inside some required-skill string), and stable: any two
postings appearing in the input in an order already consistent with the
descending comparison — in particular equal-score postings — keep that
relative order in the output. -/
theorem sort_jobs_by_relevance_spec (jobs : List JobPosting) (user_skills : List String) :
    (sort_jobs_by_relevance jobs user_skills).Perm jobs ∧
    (sort_jobs_by_relevance jobs user_skills).Pairwise
      (fun a b => calculate_relevance user_skills b ≤ calculate_relevance user_skills a) ∧
    (∀ a b, List.Sublist [a, b] jobs →
      calculate_relevance user_skills b ≤ calculate_relevance user_skills a →
      List.Sublist [a, b] (sort_jobs_by_relevance jobs user_skills)) := by
  have htrans : ∀ a b c : JobPosting,
      (decide (calculate_relevance user_skills b ≤ calculate_relevance user_skills a)) = true →
      (decide (calculate_relevance user_skills c ≤ calculate_relevance user_skills b)) = true →
      (decide (calculate_relevance user_skills c ≤ calculate_relevance user_skills a)) = true := by
    intro a b c hab hbc
    simp only [decide_eq_true_eq] at *
    omega
  have htotal : ∀ a b : JobPosting,
      ((decide (calculate_relevance user_skills b ≤ calculate_relevance user_skills a)) ||
        (decide (calculate_relevance user_skills a ≤ calculate_relevance user_skills b))) = true := by
    intro a b
    simp only [Bool.or_eq_true, decide_eq_true_eq]
    omega
  unfold sort_jobs_by_relevance
  refine ⟨List.mergeSort_perm jobs _, ?_, ?_⟩
  · exact (List.sorted_mergeSort htrans htotal jobs).imp (fun h => of_decide_eq_true h)
  · intro a b hsub hle
    exact List.pair_sublist_mergeSort htrans htotal (decide_eq_true hle) hsub

/-- Closed witness for C7: with skills "python" and "sql", the posting
with two matches scores 2, the other 0; sorting places the two-match
posting first and keeps an already-descending pair in place. -/
theorem sort_jobs_by_relevance_spec_witness :
    calculate_relevance ["python", "sql"] sampleJobP1 = 2 ∧
    calculate_relevance ["python", "sql"] sampleJobP2 = 0 ∧
    sort_jobs_by_relevance [sampleJobP2, sampleJobP1] ["python", "sql"] =
      [sampleJobP1, sampleJobP2] ∧
    List.Sublist [sampleJobP1, sampleJobP2]
      (sort_jobs_by_relevance [sampleJobP1, sampleJobP2] ["python", "sql"]) :=
  ⟨by decide, by decide,
    by simp [sort_jobs_by_relevance, List.mergeSort, List.merge, calculate_relevance]; decide,
    (sort_jobs_by_relevance_spec [sampleJobP1, sampleJobP2] ["python", "sql"]).2.2
      sampleJobP1 sampleJobP2 (List.Sublist.refl _) (by decide)⟩

/-- Updating a dict at `k` and reading `k` back yields the updated value. -/
theorem dictFind?_dictUpdate_same {κ β : Type} [BEq κ] [LawfulBEq κ]
    (m : List (κ × β)) (k : κ) (dflt : β) (f : β → β) :
    dictFind? (dictUpdate m k dflt f) k = some (f ((dictFind? m k).getD dflt)) := by
  induction m with
  | nil => simp [dictUpdate, dictFind?]
  | cons kv rest ih =>
    obtain ⟨k', v⟩ := kv
    by_cases h : (k' == k) = true
    · simp [dictUpdate, dictFind?, h]
    · simp only [dictUpdate, h, if_false, Bool.false_eq_true]
      simp only [dictFind?, List.find?_cons, h, Bool.false_eq_true] at ih ⊢
      exact ih

/-- Updating a dict at `k` leaves reads at any other key unchanged. -/
theorem dictFind?_dictUpdate_ne {κ β : Type} [BEq κ] [LawfulBEq κ]
    (m : List (κ × β)) (k k₂ : κ) (dflt : β) (f : β → β) (hne : (k == k₂) = false) :
    dictFind? (dictUpdate m k dflt f) k₂ = dictFind? m k₂ := by
  induction m with
  | nil => simp [dictUpdate, dictFind?, hne]
  | cons kv rest ih =>
    obtain ⟨k', v⟩ := kv
    by_cases h : (k' == k) = true
    · have h' : (k' == k₂) = false := by
        rw [eq_of_beq h]
        exact hne
      simp [dictUpdate, dictFind?, h, h']
    · simp only [dictUpdate, h, if_false, Bool.false_eq_true]
      simp only [dictFind?, List.find?_cons] at ih ⊢
      by_cases h2 : (k' == k₂) = true
      · simp [h2]
      · simp only [h2, Bool.false_eq_true, if_false]
        exact ih

/-- Keys after a dict update: the old keys plus (possibly) `k`. -/
theorem mem_keys_dictUpdate {κ β : Type} [BEq κ] [LawfulBEq κ]
    (m : List (κ × β)) (k x : κ) (dflt : β) (f : β → β) :
    x ∈ (dictUpdate m k dflt f).map Prod.fst ↔ x ∈ m.map Prod.fst ∨ x = k := by
  induction m with
  | nil => simp [dictUpdate]
  | cons kv rest ih =>
    obtain ⟨k', v⟩ := kv
    by_cases h : (k' == k) = true
    · rw [eq_of_beq h]
      simp [dictUpdate, h]
      tauto
    · simp only [dictUpdate, h, if_false, Bool.false_eq_true, List.map_cons,
        List.mem_cons, ih]
      tauto

/-- A dict update preserves distinctness of the keys. -/
theorem keys_nodup_dictUpdate {κ β : Type} [BEq κ] [LawfulBEq κ]
    (m : List (κ × β)) (k : κ) (dflt : β) (f : β → β)
    (h : (m.map Prod.fst).Nodup) :
    ((dictUpdate m k dflt f).map Prod.fst).Nodup := by
  induction m with
  | nil => simp [dictUpdate]
  | cons kv rest ih =>
    obtain ⟨k', v⟩ := kv
    simp only [List.map_cons, List.nodup_cons] at h
    by_cases hh : (k' == k) = true
    · simp only [dictUpdate, hh, if_true, List.map_cons, List.nodup_cons]
      exact h
    · simp only [dictUpdate, hh, if_false, Bool.false_eq_true, List.map_cons,
        List.nodup_cons]
      refine ⟨?_, ih h.2⟩
      rw [mem_keys_dictUpdate]
      rintro (habs | habs)
      · exact h.1 habs
      · rw [habs] at hh
        simp at hh

/-- In a dict with distinct keys, membership determines lookup. -/
theorem dictFind?_of_mem_nodup {κ β : Type} [BEq κ] [LawfulBEq κ]
    (m : List (κ × β)) (hnd : (m.map Prod.fst).Nodup) (k : κ) (d : β)
    (hm : (k, d) ∈ m) :
    dictFind? m k = some d := by
  induction m with
  | nil => cases hm
  | cons kv rest ih =>
    obtain ⟨k', v⟩ := kv
    simp only [List.map_cons, List.nodup_cons] at hnd
    rcases List.mem_cons.1 hm with heq | hmem
    · cases heq
      simp [dictFind?]
    · have hk'k : (k' == k) = false := by
        rw [Bool.eq_false_iff]
        intro habs
        rw [eq_of_beq habs] at hnd
        exact hnd.1 (List.mem_map.2 ⟨(k, d), hmem, rfl⟩)
      simp only [dictFind?, List.find?_cons, hk'k, Bool.false_eq_true, if_false]
      simp only [dictFind?] at ih
      exact ih hnd.2 hmem

/-- The statistics fold keeps the bucket keys distinct. -/
theorem bucketFold_keys_nodup {κ : Type} [BEq κ] [LawfulBEq κ]
    (key? : UserAnswer → Option κ) (answers : List UserAnswer) :
    ((bucketFold key? answers).map Prod.fst).Nodup := by
  suffices h : ∀ m : List (κ × BucketAcc), (m.map Prod.fst).Nodup →
      ((answers.foldl (bucketStep key?) m).map Prod.fst).Nodup by
    exact h [] (by simp)
  induction answers with
  | nil => exact fun m hm => hm
  | cons a l ih =>
    intro m hm
    rw [List.foldl_cons]
    apply ih
    unfold bucketStep
    cases key? a with
    | none => exact hm
    | some k => exact keys_nodup_dictUpdate m k _ _ hm

/-- Characterization of the statistics fold: reading bucket `k` after
processing `answers` from any starting dict returns the starting value (if
any) extended by exactly the contribution of the answers whose key is `k`;
a bucket is present exactly when it started present or some answer feeds
it. -/
theorem bucketFold_go {κ : Type} [BEq κ] [LawfulBEq κ] (key? : UserAnswer → Option κ)
    (answers : List UserAnswer) :
    ∀ (m : List (κ × BucketAcc)) (k : κ),
      dictFind? (answers.foldl (bucketStep key?) m) k =
        match dictFind? m k with
        | some d => some (bucketAccAppend d (bucketContrib key? k answers))
        | none =>
          if (bucketAnswers key? k answers).isEmpty then none
          else some (bucketContrib key? k answers) := by
  induction answers with
  | nil =>
    intro m k
    cases hm : dictFind? m k with
    | some d =>
      simp [hm, bucketContrib, bucketAnswers, bucketScores, bucketAccAppend]
    | none =>
      simp [hm, bucketAnswers]
  | cons a l ih =>
    intro m k
    rw [List.foldl_cons, ih (bucketStep key? m a) k]
    unfold bucketStep
    cases hka : key? a with
    | none =>
      have hba : bucketAnswers key? k (a :: l) = bucketAnswers key? k l := by
        simp [bucketAnswers, List.filter_cons, hka]
      have hc : bucketContrib key? k (a :: l) = bucketContrib key? k l := by
        simp [bucketContrib, bucketScores, hba]
      rw [hc, hba]
    | some ka =>
      by_cases hk : (ka == k) = true
      · rw [eq_of_beq hk] at hka ⊢
        rw [dictFind?_dictUpdate_same]
        have hba : bucketAnswers key? k (a :: l) = a :: bucketAnswers key? k l := by
          simp [bucketAnswers, List.filter_cons, hka]
        have hsc : bucketScores key? k (a :: l) =
            (if truthyScore a.confidence_score then a.confidence_score.toList else []) ++
              bucketScores key? k l := by
          rw [bucketScores, hba, List.filterMap_cons]
          by_cases ht : truthyScore a.confidence_score = true
          · cases hcs : a.confidence_score with
            | none => rw [hcs] at ht; simp [truthyScore] at ht
            | some q =>
              rw [hcs] at ht
              simp [ht, bucketScores]
          · simp [ht, Bool.eq_false_iff.2 ht, bucketScores]
        cases hm : dictFind? m k with
        | some d =>
          simp only [hm, Option.getD_some]
          show some (bucketAccAppend (bucketAdd a d) (bucketContrib key? k l)) =
            some (bucketAccAppend d (bucketContrib key? k (a :: l)))
          simp only [bucketAccAppend, bucketAdd, bucketContrib, hba, hsc,
            List.length_cons, Option.some.injEq, BucketAcc.mk.injEq]
          refine ⟨by omega, by rw [List.append_assoc]⟩
        | none =>
          simp only [hm, Option.getD_none]
          show some (bucketAccAppend (bucketAdd a ⟨0, []⟩) (bucketContrib key? k l)) =
            if (bucketAnswers key? k (a :: l)).isEmpty = true then none
            else some (bucketContrib key? k (a :: l))
          rw [hba]
          simp only [List.isEmpty_cons, Bool.false_eq_true, if_false]
          simp only [bucketAccAppend, bucketAdd, bucketContrib, hba, hsc,
            List.length_cons, Option.some.injEq, BucketAcc.mk.injEq]
          refine ⟨by omega, by simp⟩
      · rw [dictFind?_dictUpdate_ne m ka k _ _ (Bool.eq_false_iff.2 hk)]
        have hba : bucketAnswers key? k (a :: l) = bucketAnswers key? k l := by
          simp [bucketAnswers, List.filter_cons, hka, hk]
        have hc : bucketContrib key? k (a :: l) = bucketContrib key? k l := by
          simp [bucketContrib, bucketScores, hba]
        rw [hc, hba]

/-- Every bucket emitted by the statistics fold is exactly the declarative
contribution of its key. -/
theorem bucketFold_mem_eq {κ : Type} [BEq κ] [LawfulBEq κ]
    (key? : UserAnswer → Option κ) (answers : List UserAnswer) (k : κ) (d : BucketAcc)
    (hm : (k, d) ∈ bucketFold key? answers) :
    d = bucketContrib key? k answers := by
  have h1 : dictFind? (bucketFold key? answers) k = some d :=
    dictFind?_of_mem_nodup _ (bucketFold_keys_nodup key? answers) k d hm
  have h2 := bucketFold_go key? answers [] k
  rw [bucketFold] at h1
  rw [h1] at h2
  have hnone : dictFind? ([] : List (κ × BucketAcc)) k = none := rfl
  rw [hnone] at h2
  by_cases he : (bucketAnswers key? k answers).isEmpty = true
  · rw [if_pos he] at h2
    exact Option.noConfusion h2
  · rw [if_neg he] at h2
    exact Option.some.inj h2

/-- C8 counterexample: two answers in the same week carry the available
confidence scores 0.0 and 1.0; the code reports the weekly average 1.0
(Python `if answer.confidence_score:` drops the 0.0 score), while the
arithmetic mean of the scores available on the bucket's answers is 1/2. -/
theorem weekly_average_cex :
    get_weekly_progress [zeroScoreAnswer, oneScoreAnswer] =
      [{ week := -3, questions_attempted := 2, average_score := 1 }] ∧
    ([zeroScoreAnswer, oneScoreAnswer].filterMap (fun a => a.confidence_score)).sum /
      (([zeroScoreAnswer, oneScoreAnswer].filterMap (fun a => a.confidence_score)).length : ℚ) =
      1/2 ∧
    (1 : ℚ) ≠ 1/2 := by
  refine ⟨?_, ?_, by norm_num⟩
  · simp [get_weekly_progress, bucketFold, bucketStep, dictUpdate, bucketAdd,
      bucketAverage, weekStartOf, pyWeekday, truthyScore, zeroScoreAnswer,
      oneScoreAnswer]
  · simp [zeroScoreAnswer, oneScoreAnswer]

/-- C8 (amended): every weekly bucket and every category bucket reports as
`average_score` the mean of the truthy confidence scores of its answers —
the scores that are present and non-zero, since `if answer.confidence_score:`
also drops an available score of 0.0 — and reports 0.0 when the bucket
collected no such score; `questions_attempted` counts all the bucket's
answers. -/
theorem bucket_average_amended (questions : List InterviewQuestion)
    (answers : List UserAnswer) :
    (∀ e ∈ get_weekly_progress answers,
      e.questions_attempted =
        (bucketAnswers (fun a => some (weekStartOf a)) e.week answers).length ∧
      e.average_score =
        (if (bucketScores (fun a => some (weekStartOf a)) e.week answers).isEmpty then 0
         else (bucketScores (fun a => some (weekStartOf a)) e.week answers).sum /
           (bucketScores (fun a => some (weekStartOf a)) e.week answers).length)) ∧
    (∀ ce ∈ get_category_performance questions answers,
      ce.2.questions_attempted =
        (bucketAnswers (questionCategory questions) ce.1 answers).length ∧
      ce.2.average_score =
        (if (bucketScores (questionCategory questions) ce.1 answers).isEmpty then 0
         else (bucketScores (questionCategory questions) ce.1 answers).sum /
           (bucketScores (questionCategory questions) ce.1 answers).length)) := by
  constructor
  · intro e he
    unfold get_weekly_progress at he
    obtain ⟨⟨k, d⟩, hkd, rfl⟩ := List.mem_map.1 he
    have hd := bucketFold_mem_eq _ answers k d hkd
    subst hd
    exact ⟨rfl, rfl⟩
  · intro ce hce
    unfold get_category_performance at hce
    obtain ⟨⟨k, d⟩, hkd, rfl⟩ := List.mem_map.1 hce
    have hd := bucketFold_mem_eq _ answers k d hkd
    subst hd
    exact ⟨rfl, rfl⟩

/-- Closed witness for C8 (amended) on the two sample answers: the single
weekly bucket (week -3) counts both answers and averages only the truthy
score 1.0. -/
theorem bucket_average_amended_witness :
    ((⟨-3, 2, 1⟩ : WeeklyEntry) ∈ get_weekly_progress [zeroScoreAnswer, oneScoreAnswer]) ∧
    ((⟨-3, 2, 1⟩ : WeeklyEntry).questions_attempted =
      (bucketAnswers (fun a => some (weekStartOf a)) (⟨-3, 2, 1⟩ : WeeklyEntry).week
        [zeroScoreAnswer, oneScoreAnswer]).length ∧
    (⟨-3, 2, 1⟩ : WeeklyEntry).average_score =
      (if (bucketScores (fun a => some (weekStartOf a)) (⟨-3, 2, 1⟩ : WeeklyEntry).week
            [zeroScoreAnswer, oneScoreAnswer]).isEmpty then 0
       else (bucketScores (fun a => some (weekStartOf a)) (⟨-3, 2, 1⟩ : WeeklyEntry).week
            [zeroScoreAnswer, oneScoreAnswer]).sum /
         (bucketScores (fun a => some (weekStartOf a)) (⟨-3, 2, 1⟩ : WeeklyEntry).week
            [zeroScoreAnswer, oneScoreAnswer]).length)) := by
  have hmem : (⟨-3, 2, 1⟩ : WeeklyEntry) ∈
      get_weekly_progress [zeroScoreAnswer, oneScoreAnswer] := by
    simp [get_weekly_progress, bucketFold, bucketStep, dictUpdate, bucketAdd,
      bucketAverage, weekStartOf, pyWeekday, truthyScore, zeroScoreAnswer,
      oneScoreAnswer]
  exact ⟨hmem,
    (bucket_average_amended [] [zeroScoreAnswer, oneScoreAnswer]).1 _ hmem⟩
